import Mathlib

/-!
Verification of the deep-seas incremental fishing game core.

This file gives a shallow embedding of the game's simulation core
(random utilities, rarity resolution, fish generation and serialization,
inventory, economy, upgrades, breeding outcomes, statistics/achievements,
and the fishing action state machine) and proves the specification
claims about it.

Modelling conventions:
* JavaScript numbers are modelled as `ℚ` (exact rationals); quantities
  that are integers in every reachable state (levels, depths drawn by
  `randomInt`, timestamps in milliseconds) are modelled as `ℤ` or `ℕ`.
* `Math.random()` draws are passed in explicitly as rationals in `[0,1)`;
  a function that consumes k draws takes k extra arguments.
* `Math.round x` is `⌊x + 1/2⌋` (round half towards positive infinity),
  `Math.floor` is `Int.floor`, exactly as in JavaScript for the exact
  values arising here.
* JavaScript `Map` objects are association lists in insertion order.
* `Date` values are their millisecond timestamps; `Date.toISOString` and
  ISO-8601 parsing are modelled in full (proleptic Gregorian calendar).
-/

namespace DeepSeas

/-! ## Random utility functions (src/utils/Random.ts) -/

/-- JavaScript `Math.round`: round half towards positive infinity. -/
def jsRound (q : ℚ) : ℤ := ⌊q + 1 / 2⌋

/-- `randomInt(min, max)` = `Math.floor(Math.random() * (max - min + 1)) + min`,
with the `Math.random()` draw `r` passed explicitly. -/
def randomInt (lo hi : ℤ) (r : ℚ) : ℤ := ⌊r * ((hi : ℚ) - (lo : ℚ) + 1)⌋ + lo

/-- `randomFloat(min, max)` = `Math.random() * (max - min) + min`. -/
def randomFloat (lo hi : ℚ) (r : ℚ) : ℚ := r * (hi - lo) + lo

/-- `randomFloatPrecision(min, max, precision)`: round a uniform draw to the
given number of decimal places. -/
def randomFloatPrecision (lo hi : ℚ) (precision : ℕ) (r : ℚ) : ℚ :=
  (jsRound (randomFloat lo hi r * 10 ^ precision) : ℚ) / 10 ^ precision

/-- `chance(probability)` = `Math.random() < probability`. -/
def chance (r p : ℚ) : Bool := r < p

/-! ## Rarity (src/utils/Constants.ts) -/

/-- The five fish rarity tiers. -/
inductive FishRarity where
  | common
  | uncommon
  | rare
  | legendary
  | mythic
deriving DecidableEq, Repr

/-- `RARITY_CHANCES` from Constants.ts. -/
def RARITY_CHANCES : FishRarity → ℚ
  | .common => 6 / 10
  | .uncommon => 25 / 100
  | .rare => 1 / 10
  | .legendary => 4 / 100
  | .mythic => 1 / 100

/-- `RARITY_VALUE_MULTIPLIERS` from Constants.ts. -/
def RARITY_VALUE_MULTIPLIERS : FishRarity → ℚ
  | .common => 1
  | .uncommon => 5 / 2
  | .rare => 6
  | .legendary => 15
  | .mythic => 40

/-! ## Economy (src/game/economy/Economy.ts)

The economy is a single mutable balance; we model it as a `ℚ` value and
methods as state-passing functions. -/

namespace Economy

/-- `Economy.addMoney`: no-op for `amount ≤ 0`, else adds. -/
def addMoney (money amount : ℚ) : ℚ :=
  if amount ≤ 0 then money else money + amount

/-- `Economy.spendMoney`: returns `(success, new balance)`.  Amounts `≤ 0`
succeed without mutation; otherwise fails iff the balance is short. -/
def spendMoney (money amount : ℚ) : Bool × ℚ :=
  if amount ≤ 0 then (true, money)
  else if money < amount then (false, money)
  else (true, money - amount)

/-- `Economy.canAfford`. -/
def canAfford (money amount : ℚ) : Bool := amount ≤ money

end Economy

/-! ## Upgrades (Upgrade.ts / UpgradeManager.ts) -/

/-- Upgrade type tags (`UpgradeType` in Constants.ts). -/
inductive UpgradeType where
  | fishingPower
  | lineStrength
  | depthAccess
  | tankCapacity
  | catchSpeed
  | breedingEfficiency
  | breedingTanks
  | pressureResistance
deriving DecidableEq, Repr

/-- A purchasable upgrade.  `level` is `ℤ` because `setLevel` (used when
loading a save) accepts an arbitrary number. `costScalingFactor` is the
constant 1.5 from the source. -/
structure Upgrade where
  id : String
  type : UpgradeType
  baseCost : ℚ
  value : ℚ
  maxLevel : ℤ
  level : ℤ := 0
deriving DecidableEq, Repr

namespace Upgrade

/-- `Upgrade.isMaxLevel`: `_level >= maxLevel`. -/
def isMaxLevel (u : Upgrade) : Bool := u.maxLevel ≤ u.level

/-- The finite cost value `Math.round(baseCost * 1.5 ** level)` read by
`nextCost` when the upgrade is not at max level. -/
def nextCostVal (u : Upgrade) : ℚ := (jsRound (u.baseCost * (3 / 2) ^ u.level) : ℚ)

/-- `Upgrade.nextCost`: `Infinity` (modelled as `⊤`) at max level, else the
rounded scaled cost. -/
def nextCost (u : Upgrade) : WithTop ℚ :=
  if u.isMaxLevel then ⊤ else (u.nextCostVal : WithTop ℚ)

/-- `Upgrade.totalValue` = `value * level`. -/
def totalValue (u : Upgrade) : ℚ := u.value * (u.level : ℚ)

/-- `Upgrade.upgrade()`: refuse at max level, else increment the level. -/
def upgrade (u : Upgrade) : Bool × Upgrade :=
  if u.isMaxLevel then (false, u) else (true, { u with level := u.level + 1 })

/-- `Upgrade.setLevel(level)`: clamp to `maxLevel` (used on load). -/
def setLevel (u : Upgrade) (n : ℤ) : Upgrade := { u with level := min n u.maxLevel }

end Upgrade

/-- An operation on a single upgrade: a purchase-driven `upgrade()` call or a
load-driven `setLevel` call. -/
inductive UpgradeOp where
  | upgradeCall
  | setLevelCall (n : ℤ)

/-- Apply a sequence of upgrade operations left to right. -/
def applyUpgradeOps (u : Upgrade) : List UpgradeOp → Upgrade
  | [] => u
  | .upgradeCall :: rest => applyUpgradeOps (u.upgrade).2 rest
  | .setLevelCall n :: rest => applyUpgradeOps (u.setLevel n) rest

/-- State of the upgrade ledger together with the economy balance it debits:
the manager's `Map` of upgrades keyed by id, in insertion order. -/
structure UMState where
  upgrades : List (String × Upgrade)
  money : ℚ
deriving DecidableEq, Repr

/-- `Map.get` on an association list. -/
def mapGet {α : Type} (m : List (String × α)) (k : String) : Option α :=
  match m.find? (fun p => p.1 = k) with
  | some p => some p.2
  | none => none

/-- `Map.set` on an association list: replace in place if the key is present,
else append. -/
def mapSet {α : Type} (m : List (String × α)) (k : String) (v : α) :
    List (String × α) :=
  match m with
  | [] => [(k, v)]
  | p :: rest => if p.1 = k then (k, v) :: rest else p :: mapSet rest k v

/-- `Map.delete` on an association list. -/
def mapDelete {α : Type} (m : List (String × α)) (k : String) :
    List (String × α) :=
  match m with
  | [] => []
  | p :: rest => if p.1 = k then rest else p :: mapDelete rest k

/-- `UpgradeManager.purchaseUpgrade`: fail on unknown id, max level, or an
unaffordable cost; otherwise debit the economy and increment the level. -/
def purchaseUpgrade (st : UMState) (uid : String) : Bool × UMState :=
  match mapGet st.upgrades uid with
  | none => (false, st)
  | some u =>
    if u.isMaxLevel then (false, st)
    else
      let cost := u.nextCostVal
      if ¬ Economy.canAfford st.money cost then (false, st)
      else
        match Economy.spendMoney st.money cost with
        | (true, money2) =>
            (true, { upgrades := mapSet st.upgrades uid (u.upgrade).2, money := money2 })
        | (false, money2) => (false, { st with money := money2 })

/-! ## Fish (src/game/fish/Fish.ts) -/

/-- Fish species catalog entry (`FishSpecies` interface). -/
structure FishSpecies where
  id : String
  name : String
  baseValue : ℚ
  minDepth : ℚ
  maxDepth : ℚ
  weightMin : ℚ
  weightMax : ℚ
deriving DecidableEq, Repr

/-- A caught fish instance.  `caughtAt` is the `Date` value as a millisecond
timestamp. -/
structure Fish where
  id : String
  speciesId : String
  speciesName : String
  rarity : FishRarity
  weight : ℚ
  value : ℚ
  caughtDepth : ℚ
  caughtAt : ℤ
deriving DecidableEq, Repr

/-- `Fish.calculateValue`: `Math.round(baseValue * (1 + weight/10) * rarityMultiplier)`. -/
def Fish.calculateValue (baseValue weight : ℚ) (rarity : FishRarity) : ℚ :=
  (jsRound (baseValue * (1 + weight / 10) * RARITY_VALUE_MULTIPLIERS rarity) : ℚ)

/-- The `Fish` constructor.  The fresh id from `generateId` and the capture
timestamp from `new Date()` are drawn from the environment and passed in;
`r` is the `Math.random()` draw used by `randomFloatPrecision`. -/
def Fish.create (species : FishSpecies) (rarity : FishRarity) (depth : ℚ)
    (freshId : String) (now : ℤ) (r : ℚ) : Fish :=
  let weight := randomFloatPrecision species.weightMin species.weightMax 1 r
  { id := freshId
    speciesId := species.id
    speciesName := species.name
    rarity := rarity
    weight := weight
    value := Fish.calculateValue species.baseValue weight rarity
    caughtDepth := depth
    caughtAt := now }

/-! ## Dates and ISO-8601 strings

`Fish.serialize` stores `caughtAt.toISOString()` and `Fish.deserialize`
re-parses it with `new Date(string)`.  We model the ECMAScript
timestamp-to-ISO conversion in full: the proleptic Gregorian calendar
conversion (the standard era/year-of-era algorithm) plus fixed-width digit
formatting, restricted to years 0–9999 (the four-digit-year range of
`toISOString`). -/

/-- Convert a day number (days since 1970-01-01) to a civil date
`(year, month, day)`. -/
def civilFromDays (z0 : ℤ) : ℤ × ℤ × ℤ :=
  let z := z0 + 719468
  let era := z / 146097
  let doe := z - era * 146097
  let yoe := (doe - doe / 1460 + doe / 36524 - doe / 146096) / 365
  let y := yoe + era * 400
  let doy := doe - (365 * yoe + yoe / 4 - yoe / 100)
  let mp := (5 * doy + 2) / 153
  let d := doy - (153 * mp + 2) / 5 + 1
  let m := mp + (if mp < 10 then 3 else -9)
  (y + (if m ≤ 2 then 1 else 0), m, d)

/-- Convert a civil date `(year, month, day)` to a day number. -/
def daysFromCivil (y0 m d : ℤ) : ℤ :=
  let y := y0 - (if m ≤ 2 then 1 else 0)
  let era := y / 400
  let yoe := y - era * 400
  let doy := (153 * (m + (if m > 2 then -3 else 9)) + 2) / 5 + d - 1
  let doe := yoe * 365 + yoe / 4 - yoe / 100 + doy
  era * 146097 + doe - 719468

/-- The decimal digit character for `d` (valid for `d < 10`). -/
def digitChar (d : ℕ) : Char := Char.ofNat (48 + d)

/-- The numeric value of a decimal digit character. -/
def charDigit (c : Char) : ℕ := c.toNat - 48

/-- `Date.prototype.toISOString` for timestamps with four-digit years:
`YYYY-MM-DDTHH:mm:ss.sssZ`. -/
def toISOString (t : ℤ) : String :=
  let days := t / 86400000
  let msOfDay := (t % 86400000).toNat
  let c := civilFromDays days
  let y := c.1.toNat
  let mo := c.2.1.toNat
  let dd := c.2.2.toNat
  let hh := msOfDay / 3600000
  let mi := msOfDay % 3600000 / 60000
  let ss := msOfDay % 60000 / 1000
  let ms := msOfDay % 1000
  String.mk
    [digitChar (y / 1000 % 10), digitChar (y / 100 % 10),
     digitChar (y / 10 % 10), digitChar (y % 10), '-',
     digitChar (mo / 10 % 10), digitChar (mo % 10), '-',
     digitChar (dd / 10 % 10), digitChar (dd % 10), 'T',
     digitChar (hh / 10 % 10), digitChar (hh % 10), ':',
     digitChar (mi / 10 % 10), digitChar (mi % 10), ':',
     digitChar (ss / 10 % 10), digitChar (ss % 10), '.',
     digitChar (ms / 100 % 10), digitChar (ms / 10 % 10),
     digitChar (ms % 10), 'Z']

/-- `new Date(isoString).getTime()` for a well-formed ISO-8601 UTC string as
produced by `toISOString`; any other shape yields 0 (the repository only
ever parses strings produced by `toISOString`). -/
def dateFromISOString (s : String) : ℤ :=
  match s.data with
  | [y3, y2, y1, y0, a1, mo1, mo0, a2, d1, d0, a3,
     h1, h0, a4, mi1, mi0, a5, sc1, sc0, a6, ms2, ms1, ms0, a7] =>
      if a1 = '-' ∧ a2 = '-' ∧ a3 = 'T' ∧ a4 = ':' ∧ a5 = ':' ∧
          a6 = '.' ∧ a7 = 'Z' then
        let y : ℤ := (1000 * charDigit y3 + 100 * charDigit y2 +
          10 * charDigit y1 + charDigit y0 : ℕ)
        let mo : ℤ := (10 * charDigit mo1 + charDigit mo0 : ℕ)
        let dd : ℤ := (10 * charDigit d1 + charDigit d0 : ℕ)
        let hh : ℤ := (10 * charDigit h1 + charDigit h0 : ℕ)
        let mi : ℤ := (10 * charDigit mi1 + charDigit mi0 : ℕ)
        let ss : ℤ := (10 * charDigit sc1 + charDigit sc0 : ℕ)
        let ms : ℤ := (100 * charDigit ms2 + 10 * charDigit ms1 +
          charDigit ms0 : ℕ)
        daysFromCivil y mo dd * 86400000 +
          (((hh * 60 + mi) * 60 + ss) * 1000 + ms)
      else 0
  | _ => 0

/-- The serialized form of a fish (`Fish.serialize`), with `caughtAt` as an
ISO timestamp string. -/
structure FishData where
  id : String
  speciesId : String
  speciesName : String
  rarity : FishRarity
  weight : ℚ
  value : ℚ
  caughtDepth : ℚ
  caughtAt : String
deriving DecidableEq, Repr

/-- `Fish.serialize`. -/
def Fish.serialize (f : Fish) : FishData :=
  { id := f.id
    speciesId := f.speciesId
    speciesName := f.speciesName
    rarity := f.rarity
    weight := f.weight
    value := f.value
    caughtDepth := f.caughtDepth
    caughtAt := toISOString f.caughtAt }

/-- `Fish.deserialize`: copy every serialized field, converting `caughtAt`
back with `new Date(data.caughtAt)`. -/
def Fish.deserialize (d : FishData) : Fish :=
  { id := d.id
    speciesId := d.speciesId
    speciesName := d.speciesName
    rarity := d.rarity
    weight := d.weight
    value := d.value
    caughtDepth := d.caughtDepth
    caughtAt := dateFromISOString d.caughtAt }

/-! ## Inventory (src/game/inventory/Inventory.ts) -/

/-- The player's inventory: a capacity bound and a `Map` from fish id to fish. -/
structure Inventory where
  capacity : ℕ
  fish : List (String × Fish)
deriving DecidableEq, Repr

namespace Inventory

/-- `Inventory.size` = `this.fish.size`. -/
def size (inv : Inventory) : ℕ := inv.fish.length

/-- `Inventory.isFull`: `this.fish.size >= this.capacity`. -/
def isFull (inv : Inventory) : Bool := inv.capacity ≤ inv.fish.length

/-- `Inventory.addFish`: fail when full, else `Map.set(fish.id, fish)`. -/
def addFish (inv : Inventory) (f : Fish) : Bool × Inventory :=
  if inv.capacity ≤ inv.fish.length then (false, inv)
  else (true, { inv with fish := mapSet inv.fish f.id f })

/-- `Inventory.getFish`. -/
def getFish (inv : Inventory) (fid : String) : Option Fish := mapGet inv.fish fid

/-- `Inventory.removeFish`: return and delete the fish when present, else
return `null` and change nothing. -/
def removeFish (inv : Inventory) (fid : String) : Option Fish × Inventory :=
  match mapGet inv.fish fid with
  | some f => (some f, { inv with fish := mapDelete inv.fish fid })
  | none => (none, inv)

/-- `Inventory.deserialize`: construct an inventory of the saved capacity and
`addFish` each saved fish in array order (drops silently when full). -/
def deserialize (capacity : ℕ) (l : List Fish) : Inventory :=
  l.foldl (fun inv f => (inv.addFish f).2) { capacity := capacity, fish := [] }

end Inventory

/-! ## Rarity resolution (src/game/fish/FishManager.ts) -/

/-- `FishManager.generateRarity`: rarest-first short-circuit draw with an
additive boost of `(fishingPower - 1) * 0.02` on every tested tier.
`r1 r2 r3 r4` are the four successive `Math.random()` draws consumed by the
`chance` calls (later draws are simply unused when an earlier test hits). -/
def generateRarity (fishingPower : ℚ) (r1 r2 r3 r4 : ℚ) : FishRarity :=
  let rarityBoost := (fishingPower - 1) * (2 / 100)
  if chance r1 (RARITY_CHANCES .mythic + rarityBoost) then .mythic
  else if chance r2 (RARITY_CHANCES .legendary + rarityBoost) then .legendary
  else if chance r3 (RARITY_CHANCES .rare + rarityBoost) then .rare
  else if chance r4 (RARITY_CHANCES .uncommon + rarityBoost) then .uncommon
  else .common

/-- All 4-tuples of draws on the uniform grid `{0/100, 1/100, …, 99/100}`. -/
def rarityGridCommonCount : ℕ :=
  (Finset.univ.filter (fun t : Fin 100 × Fin 100 × Fin 100 × Fin 100 =>
    generateRarity 1 ((t.1 : ℚ) / 100) ((t.2.1 : ℚ) / 100)
      ((t.2.2.1 : ℚ) / 100) ((t.2.2.2 : ℚ) / 100) = FishRarity.common)).card

/-! ## Breeding outcomes (src/game/breeding/BreedingOutcome.ts) -/

/-- The internal 1–5 ranking used by the rarity comparison helpers. -/
def rarityValue : FishRarity → ℕ
  | .common => 1
  | .uncommon => 2
  | .rare => 3
  | .legendary => 4
  | .mythic => 5

/-- `getHigherRarity`. -/
def getHigherRarity (r1 r2 : FishRarity) : FishRarity :=
  if rarityValue r2 ≤ rarityValue r1 then r1 else r2

/-- `getLowerRarity`. -/
def getLowerRarity (r1 r2 : FishRarity) : FishRarity :=
  if rarityValue r1 ≤ rarityValue r2 then r1 else r2

/-- `getNextHigherRarity`. -/
def getNextHigherRarity : FishRarity → FishRarity
  | .common => .uncommon
  | .uncommon => .rare
  | .rare => .legendary
  | .legendary => .mythic
  | .mythic => .mythic

/-- `getMutationChance`. -/
def getMutationChance (r : FishRarity) (rarityBoost : ℚ) : ℚ :=
  match r with
  | .common => 15 / 100 + rarityBoost
  | .uncommon => 10 / 100 + rarityBoost
  | .rare => 5 / 100 + rarityBoost
  | .legendary => 2 / 100 + rarityBoost
  | .mythic => 0

/-- `determineOffspringRarity`, with the two `Math.random()` draws
(`rInherit` for the 75% inherit-higher test, `rMut` for the mutation test)
passed explicitly. -/
def determineOffspringRarity (p1 p2 : Fish) (breedingEfficiency : ℚ)
    (rInherit rMut : ℚ) : FishRarity :=
  let rarityChanceBoost := (breedingEfficiency - 1) * (5 / 100)
  let baseRarity :=
    if chance rInherit (75 / 100) then getHigherRarity p1.rarity p2.rarity
    else getLowerRarity p1.rarity p2.rarity
  if chance rMut (getMutationChance baseRarity rarityChanceBoost) then
    getNextHigherRarity baseRarity
  else baseRarity

/-- The depth assigned to every offspring:
`Math.floor((parent1.caughtDepth + parent2.caughtDepth) / 2)`. -/
def offspringDepth (p1 p2 : Fish) : ℚ :=
  (⌊(p1.caughtDepth + p2.caughtDepth) / 2⌋ : ℚ)

/-- `generateSingleOffspring`: determine the rarity, average the parents'
depths, and build the fish. -/
def generateSingleOffspring (p1 p2 : Fish) (species : FishSpecies)
    (breedingEfficiency : ℚ) (rInherit rMut : ℚ)
    (freshId : String) (now : ℤ) (rWeight : ℚ) : Fish :=
  Fish.create species (determineOffspringRarity p1 p2 breedingEfficiency rInherit rMut)
    (offspringDepth p1 p2) freshId now rWeight

/-- The number of offspring generated on completion
(`generateOffspring`): `1 + randomInt(0, Math.floor(breedingEfficiency))`,
with the `Math.random()` draw `r` passed explicitly. -/
def offspringCount (breedingEfficiency : ℚ) (r : ℚ) : ℤ :=
  1 + randomInt 0 ⌊breedingEfficiency⌋ r

/-- Offspring counts on the uniform grid of `n` equally spaced draws
`{0/n, …, (n-1)/n}`: how many draws yield exactly `k` offspring. -/
def offspringCountGrid (breedingEfficiency : ℚ) (n : ℕ) (k : ℤ) : ℕ :=
  ((Finset.range n).filter (fun i : ℕ =>
    offspringCount breedingEfficiency ((i : ℚ) / (n : ℚ)) = k)).card

/-! ## Statistics and achievements
(src/game/stats/StatsTracker.ts, src/game/stats/Achievement.ts)

An achievement carries its single `(statName, requiredValue)` requirement
map and, as `reward`, the money amount granted by the unlock callback wired
in `Game.initializeAchievements`. -/

structure Achievement where
  id : String
  requirements : List (String × ℚ)
  isUnlocked : Bool
  reward : ℚ
deriving DecidableEq, Repr

namespace Achievement

/-- `Achievement.checkRequirement(statName, currentValue)`: `true` when
already unlocked; `false` when the achievement does not depend on the stat;
otherwise whether the stat meets the requirement (single-requirement
achievements, `areAllRequirementsMet` returns `true`). -/
def checkRequirement (a : Achievement) (statName : String) (value : ℚ) : Bool :=
  if a.isUnlocked then true
  else
    match mapGet a.requirements statName with
    | none => false
    | some req => req ≤ value

end Achievement

/-- `Achievement.unlock()` together with the unlock callback from
`Game.initializeAchievements`: if already unlocked do nothing; otherwise set
the flag and, when the configured reward is a truthy amount, credit it via
`Economy.addMoney`.  Returns the updated achievement and balance. -/
def unlockWithReward (a : Achievement) (money : ℚ) : Achievement × ℚ :=
  if a.isUnlocked then (a, money)
  else ({ a with isUnlocked := true },
        if a.reward = 0 then money else Economy.addMoney money a.reward)

/-- One achievement scan (both `checkAchievements` and
`checkAchievementsForStat` run exactly this loop): for each achievement in
order, if it is not unlocked and its requirement is now met, unlock it and
fire its reward. -/
def checkPass (statName : String) (value : ℚ) :
    List Achievement → ℚ → List Achievement × ℚ
  | [], money => ([], money)
  | a :: rest, money =>
      if !a.isUnlocked && a.checkRequirement statName value then
        let u := unlockWithReward a money
        let tail := checkPass statName value rest u.2
        (u.1 :: tail.1, tail.2)
      else
        let tail := checkPass statName value rest money
        (a :: tail.1, tail.2)

/-- The state of the stats tracker together with the economy balance that
achievement rewards credit. -/
structure StatsState where
  stats : List (String × ℚ)
  uniqueSpecies : List String
  achievements : List Achievement
  money : ℚ
deriving DecidableEq, Repr

namespace StatsState

/-- `StatsTracker.getStat`: `this.stats.get(statName) || 0`. -/
def getStat (s : StatsState) (statName : String) : ℚ :=
  (mapGet s.stats statName).getD 0

/-- `StatsTracker.setStat`: store the value, then run the achievement scan
twice — once from `notifyStatChanged → checkAchievementsForStat` and once
from the direct `checkAchievements` call. -/
def setStat (s : StatsState) (statName : String) (value : ℚ) : StatsState :=
  let stats2 := mapSet s.stats statName value
  let p1 := checkPass statName value s.achievements s.money
  let p2 := checkPass statName value p1.1 p1.2
  { s with stats := stats2, achievements := p2.1, money := p2.2 }

/-- `StatsTracker.incrementStat`. -/
def incrementStat (s : StatsState) (statName : String) (amount : ℚ) : StatsState :=
  setStat s statName (s.getStat statName + amount)

end StatsState

/-- The string value of a rarity (the TypeScript enum value). -/
def rarityString : FishRarity → String
  | .common => "common"
  | .uncommon => "uncommon"
  | .rare => "rare"
  | .legendary => "legendary"
  | .mythic => "mythic"

/-- `StatsTracker.registerFishCaught`. -/
def registerFishCaught (s : StatsState) (f : Fish) : StatsState :=
  let s1 := s.incrementStat "totalFishCaught" 1
  let s2 := s1.incrementStat (rarityString f.rarity ++ "FishCaught") 1
  let s3 := s2.incrementStat (f.speciesId ++ "Caught") 1
  let s4 :=
    if f.speciesId ∈ s3.uniqueSpecies then s3
    else
      ({ s3 with uniqueSpecies := s3.uniqueSpecies ++ [f.speciesId]
       } : StatsState).incrementStat "uniqueSpeciesCaught" 1
  if s4.getStat "maxDepthReached" < f.caughtDepth then
    s4.setStat "maxDepthReached" f.caughtDepth
  else s4

/-- The stat names initialised to 0 by `initializeStats`, in call order. -/
def initialStatNames : List String :=
  ["totalFishCaught", "commonFishCaught", "uncommonFishCaught",
   "rareFishCaught", "legendaryFishCaught", "mythicFishCaught",
   "uniqueSpeciesCaught", "maxDepthReached", "totalMoneyEarned",
   "totalMoneySpent", "totalBreedingAttempts", "successfulBreeds",
   "totalOffspring", "mutationsObtained", "totalPlayTime",
   "abilitiesActivated"]

/-- A fresh `StatsTracker` (constructor runs `initializeStats`; no
achievements are registered yet). -/
def statsTrackerNew (money : ℚ) : StatsState :=
  initialStatNames.foldl (fun s n => s.setStat n 0)
    { stats := [], uniqueSpecies := [], achievements := [], money := money }

/-- `INITIAL_ACHIEVEMENTS` from Constants.ts, wired with their reward
amounts as in `Game.initializeAchievements`. -/
def INITIAL_ACHIEVEMENTS : List Achievement :=
  [{ id := "first_catch", requirements := [("totalFishCaught", 1)],
     isUnlocked := false, reward := 10 },
   { id := "catch_10", requirements := [("totalFishCaught", 10)],
     isUnlocked := false, reward := 25 },
   { id := "catch_50", requirements := [("totalFishCaught", 50)],
     isUnlocked := false, reward := 100 },
   { id := "catch_rare", requirements := [("rareFishCaught", 1)],
     isUnlocked := false, reward := 50 },
   { id := "catch_legendary", requirements := [("legendaryFishCaught", 1)],
     isUnlocked := false, reward := 200 },
   { id := "first_breed", requirements := [("successfulBreeds", 1)],
     isUnlocked := false, reward := 100 },
   { id := "first_mutation", requirements := [("mutationsObtained", 1)],
     isUnlocked := false, reward := 150 },
   { id := "deep_diver", requirements := [("maxDepthReached", 100)],
     isUnlocked := false, reward := 200 },
   { id := "money_maker", requirements := [("totalMoneyEarned", 1000)],
     isUnlocked := false, reward := 100 },
   { id := "activate_ability", requirements := [("abilitiesActivated", 1)],
     isUnlocked := false, reward := 50 }]

/-- The stats/achievement state right after game construction: fresh stats
plus the initial achievements. -/
def gameStartStats (money : ℚ) : StatsState :=
  { statsTrackerNew money with achievements := INITIAL_ACHIEVEMENTS }

/-! ## Upgrade ledger initial data (Constants.ts `INITIAL_UPGRADES`) -/

/-- `INITIAL_UPGRADES` from Constants.ts. -/
def INITIAL_UPGRADES : List Upgrade :=
  [{ id := "basic_rod", type := .fishingPower, baseCost := 50, value := 1,
     maxLevel := 5 },
   { id := "basic_line", type := .lineStrength, baseCost := 75, value := 1,
     maxLevel := 5 },
   { id := "depth_gauge", type := .depthAccess, baseCost := 100, value := 10,
     maxLevel := 5 },
   { id := "small_tank", type := .tankCapacity, baseCost := 60, value := 5,
     maxLevel := 5 },
   { id := "reel_upgrade", type := .catchSpeed, baseCost := 85, value := 1 / 10,
     maxLevel := 5 },
   { id := "basic_breeding_tank", type := .breedingTanks, baseCost := 200,
     value := 1, maxLevel := 5 },
   { id := "breeding_handbook", type := .breedingEfficiency, baseCost := 150,
     value := 1 / 10, maxLevel := 5 },
   { id := "basic_pressure_gear", type := .pressureResistance, baseCost := 300,
     value := 1 / 5, maxLevel := 1 }]

/-- A fresh `UpgradeManager` over an economy with the given balance. -/
def upgradeManagerNew (money : ℚ) : UMState :=
  { upgrades := INITIAL_UPGRADES.map (fun u => (u.id, u)), money := money }

/-! ## Fishing action (FishingService in src/game) -/

/-- The fishing-relevant state of the `FishingService`: the `isFishing`
flag, whether a scheduled catch-completion timeout is outstanding, the
inventory, and the depth fields. -/
structure FishingState where
  isFishing : Bool
  pendingTimeout : Bool
  inventory : Inventory
  currentDepth : ℤ
  maxDepth : ℤ
deriving DecidableEq, Repr

/-- `FishingService.startFishing`, parametrised by the layer registry
(`layerExists d` models `layerManager.getLayerForDepth(d) != null`) and the
`Math.random()` draw for the depth roll.  Returns the boolean result and
the new state; a successful start schedules the one-shot completion
timeout. -/
def startFishing (layerExists : ℤ → Bool) (s : FishingState) (r : ℚ) :
    Bool × FishingState :=
  if s.isFishing then (false, s)
  else if s.inventory.isFull then (false, s)
  else
    let depth := randomInt 0 s.maxDepth r
    let s2 := { s with isFishing := true, currentDepth := depth }
    if layerExists depth then (true, { s2 with pendingTimeout := true })
    else (false, { s2 with isFishing := false })

/-- The scheduled timeout firing (`finishFishing` after the generated
catch, which may be `null`): only an outstanding timeout can fire. -/
def fireFishingTimeout (s : FishingState) (caught : Option Fish) : FishingState :=
  if s.pendingTimeout then
    let inv2 :=
      match caught with
      | some f => (s.inventory.addFish f).2
      | none => s.inventory
    { s with pendingTimeout := false, isFishing := false, inventory := inv2 }
  else s

/-- `FishingService.cancelFishing`. -/
def cancelFishing (s : FishingState) : FishingState :=
  if !s.isFishing then s
  else { s with pendingTimeout := false, isFishing := false }

/-- The events that can touch the fishing state machine. -/
inductive FishingEvent where
  | start (r : ℚ)
  | complete (caught : Option Fish)
  | cancel

/-- One step of the fishing state machine. -/
def fishingStep (layerExists : ℤ → Bool) (s : FishingState) :
    FishingEvent → FishingState
  | .start r => (startFishing layerExists s r).2
  | .complete caught => fireFishingTimeout s caught
  | .cancel => cancelFishing s

/-- The single-outstanding-action invariant: a scheduled completion timeout
implies the `isFishing` flag is set. -/
def FishingInv (s : FishingState) : Prop :=
  s.pendingTimeout = true → s.isFishing = true

/-! ## Specification-side descriptions of one achievement scan

These are not part of the source translation; they are the per-achievement
summary that the scan loop `checkPass` is proved to implement, used to state
the monotone/one-shot claim. -/

/-- What one scan does to a single achievement's state: unlock it exactly
when it is not yet unlocked and its requirement on the updated stat is met. -/
def unlockIfMet (statName : String) (value : ℚ) (a : Achievement) : Achievement :=
  if !a.isUnlocked && a.checkRequirement statName value then
    { a with isUnlocked := true }
  else a

/-- The net amount one scan credits for a single achievement: its reward
exactly when the scan unlocks it here (and the reward is a positive
amount), zero otherwise. -/
def creditOf (statName : String) (value : ℚ) (a : Achievement) : ℚ :=
  if !a.isUnlocked && a.checkRequirement statName value then
    (if 0 < a.reward then a.reward else 0)
  else 0

/-- Look up an achievement by id in a tracker state. -/
def findAchievement (s : StatsState) (aid : String) : Option Achievement :=
  s.achievements.find? (fun a => a.id = aid)

/-! ## Concrete fixtures used by witnesses -/

/-- A concrete species (the trout from `SURFACE_FISH`). -/
def testSpecies : FishSpecies :=
  { id := "trout", name := "Trout", baseValue := 5, minDepth := 0,
    maxDepth := 20, weightMin := 1 / 2, weightMax := 3 }

/-- A concrete caught fish. -/
def testFish1 : Fish :=
  { id := "f1", speciesId := "trout", speciesName := "Trout",
    rarity := .common, weight := 1, value := 6, caughtDepth := 5,
    caughtAt := 1700000000000 }

/-- A second concrete caught fish. -/
def testFish2 : Fish :=
  { id := "f2", speciesId := "trout", speciesName := "Trout",
    rarity := .uncommon, weight := 2, value := 15, caughtDepth := 11,
    caughtAt := 1700000000001 }

/-- A full one-slot inventory holding `testFish1`. -/
def testInventory : Inventory := { capacity := 1, fish := [("f1", testFish1)] }

/-- A third concrete fish whose depth makes the parents' average fractional. -/
def testFish3 : Fish :=
  { id := "f3", speciesId := "trout", speciesName := "Trout",
    rarity := .common, weight := 1, value := 6, caughtDepth := 10,
    caughtAt := 1700000000002 }

/-- The first entry of `INITIAL_UPGRADES` (used by the C1 witness). -/
def basicRod : Upgrade :=
  { id := "basic_rod", type := .fishingPower, baseCost := 50, value := 1,
    maxLevel := 5 }

/-- A fishing state with a catch pending. -/
def testFishingPending : FishingState :=
  { isFishing := true, pendingTimeout := true,
    inventory := { capacity := 10, fish := [] }, currentDepth := 3, maxDepth := 10 }

/-! ## Association list helper lemmas -/

theorem mapGet_nil {α : Type} (k : String) : mapGet ([] : List (String × α)) k = none :=
  rfl

theorem mapGet_cons {α : Type} (p : String × α) (m : List (String × α)) (k : String) :
    mapGet (p :: m) k = if p.1 = k then some p.2 else mapGet m k := by
  by_cases h : p.1 = k <;> simp [mapGet, List.find?_cons, h]

theorem mapGet_set_self {α : Type} (m : List (String × α)) (k : String) (v : α) :
    mapGet (mapSet m k v) k = some v := by
  induction m with
  | nil => simp [mapSet, mapGet_cons]
  | cons p rest ih =>
      by_cases h : p.1 = k
      · simp [mapSet, h, mapGet_cons]
      · simp [mapSet, h, mapGet_cons, ih]

theorem mapGet_set_ne {α : Type} (m : List (String × α)) (k k2 : String) (v : α)
    (h : k2 ≠ k) : mapGet (mapSet m k v) k2 = mapGet m k2 := by
  induction m with
  | nil => simp [mapSet, mapGet_cons, Ne.symm h]
  | cons p rest ih =>
      by_cases hp : p.1 = k
      · have hpk2 : ¬(p.1 = k2) := by rw [hp]; exact Ne.symm h
        simp [mapSet, hp, mapGet_cons, hpk2, Ne.symm h]
      · simp [mapSet, hp, mapGet_cons, ih]

theorem mapSet_length_le {α : Type} (m : List (String × α)) (k : String) (v : α) :
    (mapSet m k v).length ≤ m.length + 1 := by
  induction m with
  | nil => simp [mapSet]
  | cons p rest ih =>
      by_cases h : p.1 = k
      · simp [mapSet, h]
      · simp only [mapSet, h, if_false, List.length_cons]
        omega

theorem mapSet_of_not_mem {α : Type} (m : List (String × α)) (k : String) (v : α)
    (h : mapGet m k = none) : mapSet m k v = m ++ [(k, v)] := by
  induction m with
  | nil => simp [mapSet]
  | cons p rest ih =>
      rw [mapGet_cons] at h
      by_cases hp : p.1 = k
      · simp [hp] at h
      · simp [mapSet, hp, ih (by simpa [hp] using h)]

theorem mapDelete_of_none {α : Type} (m : List (String × α)) (k : String)
    (h : mapGet m k = none) : mapDelete m k = m := by
  induction m with
  | nil => rfl
  | cons p rest ih =>
      rw [mapGet_cons] at h
      by_cases hp : p.1 = k
      · simp [hp] at h
      · simp [mapDelete, hp, ih (by simpa [hp] using h)]

theorem mapDelete_length {α : Type} (m : List (String × α)) (k : String) (v : α)
    (h : mapGet m k = some v) : (mapDelete m k).length = m.length - 1 := by
  induction m with
  | nil => simp [mapGet_nil] at h
  | cons p rest ih =>
      rw [mapGet_cons] at h
      by_cases hp : p.1 = k
      · simp [mapDelete, hp]
      · rw [mapDelete, if_neg hp]
        have hrest := ih (by simpa [hp] using h)
        have : rest.length ≥ 1 := by
          cases rest with
          | nil => simp [mapGet_nil] at h; simp [hp] at h
          | cons q t => simp
        simp only [List.length_cons]
        omega

/-! ## Claim theorems -/

/-- Claim C6: adding a fish to an inventory whose size equals its capacity
returns `false` and leaves the inventory unchanged; removing a present fish
id returns exactly the stored fish, decreases the size by 1 and keeps the
capacity; removing an absent id returns `none` and changes nothing. -/
theorem inventory_add_remove_spec :
    (∀ (inv : Inventory) (f : Fish), inv.size = inv.capacity →
      inv.addFish f = (false, inv)) ∧
    (∀ (inv : Inventory) (fid : String) (f : Fish), inv.getFish fid = some f →
      (inv.removeFish fid).1 = some f ∧
      (inv.removeFish fid).2.size = inv.size - 1 ∧
      (inv.removeFish fid).2.capacity = inv.capacity) ∧
    (∀ (inv : Inventory) (fid : String), inv.getFish fid = none →
      inv.removeFish fid = (none, inv)) := by
  refine ⟨?_, ?_, ?_⟩
  · intro inv f h
    simp [Inventory.addFish, Inventory.size] at h ⊢
    omega
  · intro inv fid f h
    simp only [Inventory.removeFish, Inventory.getFish] at h ⊢
    rw [h]
    exact ⟨rfl, mapDelete_length inv.fish fid f h, rfl⟩
  · intro inv fid h
    simp only [Inventory.removeFish, Inventory.getFish] at h ⊢
    rw [h]

/-- Witness for C6 on a concrete full inventory. -/
theorem inventory_add_remove_spec_witness :
    testInventory.addFish testFish2 = (false, testInventory) ∧
    (testInventory.removeFish "f1").1 = some testFish1 ∧
    (testInventory.removeFish "f1").2.size = testInventory.size - 1 :=
  ⟨inventory_add_remove_spec.1 testInventory testFish2 (by decide),
   (inventory_add_remove_spec.2.1 testInventory "f1" testFish1 (by decide)).1,
   (inventory_add_remove_spec.2.1 testInventory "f1" testFish1 (by decide)).2.1⟩

/-- Claim C8: `startFishing` returns `false` (with no timer scheduled and no
state change) when a fishing action is already pending or the inventory is
full; the pending-timeout-implies-fishing invariant is preserved by every
event of the fishing state machine, so at most one fishing action is ever
outstanding — in particular a re-entrant start while a completion timeout is
outstanding is rejected without any effect. -/
theorem start_fishing_spec :
    (∀ (layerExists : ℤ → Bool) (s : FishingState) (r : ℚ),
      s.isFishing = true → startFishing layerExists s r = (false, s)) ∧
    (∀ (layerExists : ℤ → Bool) (s : FishingState) (r : ℚ),
      s.inventory.isFull = true → startFishing layerExists s r = (false, s)) ∧
    (∀ (layerExists : ℤ → Bool) (s : FishingState) (r : ℚ),
      FishingInv s → s.pendingTimeout = true →
      startFishing layerExists s r = (false, s)) ∧
    (∀ (layerExists : ℤ → Bool) (s : FishingState) (e : FishingEvent),
      FishingInv s → FishingInv (fishingStep layerExists s e)) := by
  refine ⟨?_, ?_, ?_, ?_⟩
  · intro le s r h
    simp [startFishing, h]
  · intro le s r h
    by_cases hf : s.isFishing = true
    · simp [startFishing, hf]
    · simp [startFishing, hf, h]
  · intro le s r hinv hp
    have hf := hinv hp
    simp [startFishing, hf]
  · intro le s e hinv
    cases e with
    | start r =>
        simp only [fishingStep, startFishing]
        by_cases hf : s.isFishing = true
        · simpa [hf] using hinv
        · have hpf : s.pendingTimeout = false := by
            cases hps : s.pendingTimeout
            · rfl
            · exact absurd (hinv hps) hf
          by_cases hfull : s.inventory.isFull = true
          · simpa [hf, hfull] using hinv
          · by_cases hl : le (randomInt 0 s.maxDepth r) = true
            · simp [hf, hfull, hl, FishingInv]
            · simp [hf, hfull, hl, FishingInv, hpf]
    | complete caught =>
        simp only [fishingStep, fireFishingTimeout]
        by_cases hp : s.pendingTimeout = true
        · simp [hp, FishingInv]
        · simpa [hp] using hinv
    | cancel =>
        simp only [fishingStep, cancelFishing]
        by_cases hf : s.isFishing = true
        · simp [hf, FishingInv]
        · simpa [hf] using hinv

/-- Witness for C8: a re-entrant start while a catch is pending is rejected
with no state change. -/
theorem start_fishing_spec_witness :
    startFishing (fun _ => true) testFishingPending (1 / 2) =
      (false, testFishingPending) :=
  start_fishing_spec.2.2.1 (fun _ => true) testFishingPending (1 / 2)
    (by intro h; decide) (by decide)

/-- Claim C10: over every sequence of `upgrade()` and `setLevel` calls the
invariant `level ≤ maxLevel` is preserved; `upgrade()` refuses at max level;
`setLevel` clamps to `maxLevel`; and `nextCost` is `Infinity` exactly when
the upgrade is at max level. -/
theorem upgrade_level_invariant :
    (∀ (u : Upgrade) (ops : List UpgradeOp), u.level ≤ u.maxLevel →
      (applyUpgradeOps u ops).level ≤ (applyUpgradeOps u ops).maxLevel) ∧
    (∀ u : Upgrade, u.isMaxLevel = true → u.upgrade = (false, u)) ∧
    (∀ (u : Upgrade) (n : ℤ), (u.setLevel n).level = min n u.maxLevel) ∧
    (∀ u : Upgrade, u.nextCost = ⊤ ↔ u.maxLevel ≤ u.level) := by
  refine ⟨?_, ?_, ?_, ?_⟩
  · intro u ops
    induction ops generalizing u with
    | nil => intro h; simpa [applyUpgradeOps] using h
    | cons op rest ih =>
        intro h
        cases op with
        | upgradeCall =>
            simp only [applyUpgradeOps, Upgrade.upgrade]
            by_cases hm : u.isMaxLevel = true
            · simpa [hm] using ih u h
            · have hlt : u.level < u.maxLevel := by
                simp [Upgrade.isMaxLevel] at hm
                omega
              simp only [hm, Bool.false_eq_true, if_false]
              exact ih _ (by simp; omega)
        | setLevelCall n =>
            simp only [applyUpgradeOps, Upgrade.setLevel]
            exact ih _ (min_le_right n u.maxLevel)
  · intro u h
    simp [Upgrade.upgrade, h]
  · intro u n
    rfl
  · intro u
    constructor
    · intro h
      by_contra hc
      have : u.isMaxLevel = false := by simp [Upgrade.isMaxLevel]; omega
      simp [Upgrade.nextCost, this] at h
    · intro h
      have : u.isMaxLevel = true := by simp [Upgrade.isMaxLevel, h]
      simp [Upgrade.nextCost, this]

/-- Witness for C10 on a concrete upgrade and operation sequence. -/
theorem upgrade_level_invariant_witness :
    (applyUpgradeOps
      { id := "basic_rod", type := .fishingPower, baseCost := 50, value := 1,
        maxLevel := 5, level := 0 }
      [.upgradeCall, .setLevelCall 99, .upgradeCall]).level ≤
    (applyUpgradeOps
      { id := "basic_rod", type := .fishingPower, baseCost := 50, value := 1,
        maxLevel := 5, level := 0 }
      [.upgradeCall, .setLevelCall 99, .upgradeCall]).maxLevel :=
  upgrade_level_invariant.1 _ _ (by decide)

theorem jsRound_nonneg (q : ℚ) (h : 0 ≤ q) : 0 ≤ jsRound q := by
  unfold jsRound
  exact Int.le_floor.mpr (by push_cast; linarith)

theorem spendMoney_exact (money amount : ℚ) (h0 : 0 ≤ amount)
    (h1 : amount ≤ money) :
    Economy.spendMoney money amount = (true, money - amount) := by
  unfold Economy.spendMoney
  by_cases hz : amount ≤ 0
  · have hz0 : amount = 0 := le_antisymm hz h0
    simp [hz0]
  · rw [if_neg hz, if_neg (not_lt.mpr h1)]

/-- Claim C1: for an upgrade known to the ledger that is below its max
level, the next cost is exactly `Math.round(baseCost * 1.5 ^ level)`; a
purchase with sufficient balance succeeds, debits exactly that cost and
increments exactly that upgrade's level by one; and a purchase fails with
no state change whatsoever when the balance is below the cost, the upgrade
is at max level, or the id is unknown.  (The nonnegative-base-cost
hypothesis holds for every upgrade the game ever registers.) -/
theorem purchase_upgrade_spec (st : UMState) (uid : String) :
    (∀ u : Upgrade, mapGet st.upgrades uid = some u → 0 ≤ u.baseCost →
      u.level < u.maxLevel →
      u.nextCost = ((jsRound (u.baseCost * (3 / 2) ^ u.level) : ℚ) : WithTop ℚ) ∧
      (u.nextCostVal ≤ st.money →
        (purchaseUpgrade st uid).1 = true ∧
        (purchaseUpgrade st uid).2.money = st.money - u.nextCostVal ∧
        mapGet (purchaseUpgrade st uid).2.upgrades uid =
          some { u with level := u.level + 1 } ∧
        ∀ k2, k2 ≠ uid → mapGet (purchaseUpgrade st uid).2.upgrades k2 =
          mapGet st.upgrades k2) ∧
      (st.money < u.nextCostVal → purchaseUpgrade st uid = (false, st))) ∧
    (∀ u : Upgrade, mapGet st.upgrades uid = some u → u.maxLevel ≤ u.level →
      purchaseUpgrade st uid = (false, st)) ∧
    (mapGet st.upgrades uid = none → purchaseUpgrade st uid = (false, st)) := by
  refine ⟨?_, ?_, ?_⟩
  · intro u hu hb hl
    have hm : u.isMaxLevel = false := by
      simp only [Upgrade.isMaxLevel, decide_eq_false_iff_not, not_le]
      exact hl
    refine ⟨by simp [Upgrade.nextCost, hm, Upgrade.nextCostVal], ?_, ?_⟩
    · intro hmoney
      have hc0 : 0 ≤ u.nextCostVal := by
        have := jsRound_nonneg (u.baseCost * (3 / 2) ^ u.level)
          (mul_nonneg hb (zpow_nonneg (by norm_num) _))
        unfold Upgrade.nextCostVal
        exact_mod_cast this
      have hca : Economy.canAfford st.money u.nextCostVal = true := by
        simp [Economy.canAfford, hmoney]
      have hspend := spendMoney_exact st.money u.nextCostVal hc0 hmoney
      have hup : u.upgrade = (true, { u with level := u.level + 1 }) := by
        simp [Upgrade.upgrade, hm]
      have hpu : purchaseUpgrade st uid =
          (true, { upgrades := mapSet st.upgrades uid { u with level := u.level + 1 },
                   money := st.money - u.nextCostVal }) := by
        simp [purchaseUpgrade, hu, hm, hca, hspend, hup]
      rw [hpu]
      refine ⟨rfl, rfl, mapGet_set_self _ _ _, ?_⟩
      intro k2 hk2
      exact mapGet_set_ne _ _ _ _ hk2
    · intro hlt
      have hca : Economy.canAfford st.money u.nextCostVal = false := by
        simp [Economy.canAfford]
        exact hlt
      simp [purchaseUpgrade, hu, hm, hca]
  · intro u hu hmax
    have hm : u.isMaxLevel = true := by
      simp [Upgrade.isMaxLevel, hmax]
    simp [purchaseUpgrade, hu, hm]
  · intro h
    simp [purchaseUpgrade, h]

/-- Witness for C1: with exactly 50 money, buying `basic_rod` (cost
`round(50 × 1.5^0) = 50`) succeeds and leaves balance `50 - 50`. -/
theorem purchase_upgrade_spec_witness :
    (purchaseUpgrade (upgradeManagerNew 50) "basic_rod").1 = true ∧
    (purchaseUpgrade (upgradeManagerNew 50) "basic_rod").2.money =
      50 - basicRod.nextCostVal :=
  have h := ((purchase_upgrade_spec (upgradeManagerNew 50) "basic_rod").1
    basicRod rfl (by norm_num [basicRod]) (by norm_num [basicRod])).2.1
    (by norm_num [basicRod, Upgrade.nextCostVal, jsRound, upgradeManagerNew])
  ⟨h.1, h.2.1⟩

theorem deserialize_fold_spec (l : List Fish) (acc : Inventory)
    (hnodup : (l.map Fish.id).Nodup)
    (hdisj : ∀ f ∈ l, mapGet acc.fish f.id = none)
    (hsize : acc.size ≤ acc.capacity) :
    (l.foldl (fun inv f => (inv.addFish f).2) acc).fish =
      acc.fish ++ (l.take (acc.capacity - acc.size)).map (fun f => (f.id, f)) ∧
    (l.foldl (fun inv f => (inv.addFish f).2) acc).capacity = acc.capacity := by
  induction l generalizing acc with
  | nil => simp
  | cons f rest ih =>
      simp only [List.map_cons, List.nodup_cons, List.mem_map] at hnodup
      by_cases hfull : acc.capacity ≤ acc.fish.length
      · have heq : acc.capacity = acc.size := le_antisymm hfull hsize
        have hstep : (acc.addFish f).2 = acc := by
          simp [Inventory.addFish, hfull]
        have := ih acc hnodup.2 (fun g hg => hdisj g (List.mem_cons_of_mem f hg))
          hsize
        simp only [List.foldl_cons, hstep]
        rw [this.1, this.2]
        simp [heq]
      · have hlt : acc.fish.length < acc.capacity := lt_of_not_le hfull
        have hnone := hdisj f (List.mem_cons_self f rest)
        have hstep : (acc.addFish f).2 =
            { acc with fish := acc.fish ++ [(f.id, f)] } := by
          simp [Inventory.addFish, hfull, mapSet_of_not_mem acc.fish f.id f hnone]
        have hdisj2 : ∀ g ∈ rest,
            mapGet (acc.fish ++ [(f.id, f)]) g.id = none := by
          intro g hg
          rw [← mapSet_of_not_mem acc.fish f.id f hnone]
          rw [mapGet_set_ne acc.fish f.id g.id f]
          · exact hdisj g (List.mem_cons_of_mem f hg)
          · intro hgid
            exact hnodup.1 ⟨g, hg, hgid⟩
        have hsize2 : ({ acc with fish := acc.fish ++ [(f.id, f)] } :
            Inventory).size ≤ acc.capacity := by
          simp [Inventory.size]
          omega
        have := ih { acc with fish := acc.fish ++ [(f.id, f)] } hnodup.2
          hdisj2 hsize2
        simp only [List.foldl_cons, hstep]
        rw [this.1, this.2]
        refine ⟨?_, rfl⟩
        have htake : acc.capacity - acc.size = (acc.capacity - acc.size - 1) + 1 := by
          unfold Inventory.size at hlt ⊢
          omega
        rw [htake, List.take_succ_cons]
        simp only [Inventory.size, List.length_append, List.length_singleton]
        have : acc.capacity - (acc.fish.length + 1) =
            acc.capacity - acc.fish.length - 1 := by omega
        rw [this]
        simp [Inventory.size, List.append_assoc]

theorem fold_addFish_capacity (l : List Fish) (acc : Inventory) :
    (l.foldl (fun inv f => (inv.addFish f).2) acc).capacity = acc.capacity := by
  induction l generalizing acc with
  | nil => rfl
  | cons f rest ih =>
      simp only [List.foldl_cons]
      rw [ih]
      by_cases hfull : acc.capacity ≤ acc.fish.length
      · simp [Inventory.addFish, hfull]
      · simp [Inventory.addFish, hfull]

theorem deserialize_size_le_aux (l : List Fish) (acc : Inventory)
    (h : acc.size ≤ acc.capacity) :
    (l.foldl (fun inv f => (inv.addFish f).2) acc).size ≤
      (l.foldl (fun inv f => (inv.addFish f).2) acc).capacity := by
  induction l generalizing acc with
  | nil => simpa using h
  | cons f rest ih =>
      simp only [List.foldl_cons]
      apply ih
      simp only [Inventory.addFish]
      by_cases hfull : acc.capacity ≤ acc.fish.length
      · simpa [hfull] using h
      · have := mapSet_length_le acc.fish f.id f
        simp only [hfull, if_false, Inventory.size]
        simp only [Inventory.size] at h
        omega

/-- Claim C9: deserializing an inventory whose saved fish array holds more
entries than the saved capacity silently keeps exactly the first
`capacity` fish in array order (assuming the saved ids are distinct, as
they always are in data produced by `serialize`), discards the rest
without any error signal, and the resulting size never exceeds the
capacity. -/
theorem inventory_deserialize_spec :
    (∀ (cap : ℕ) (l : List Fish), (l.map Fish.id).Nodup →
      (Inventory.deserialize cap l).fish =
        (l.take cap).map (fun f => (f.id, f)) ∧
      (Inventory.deserialize cap l).size = min cap l.length) ∧
    ∀ (cap : ℕ) (l : List Fish), (Inventory.deserialize cap l).size ≤ cap := by
  constructor
  · intro cap l hnodup
    have h := deserialize_fold_spec l { capacity := cap, fish := [] } hnodup
      (by intro f _; rfl) (by simp [Inventory.size])
    unfold Inventory.deserialize
    constructor
    · rw [h.1]
      simp [Inventory.size]
    · simp only [Inventory.size]
      rw [h.1]
      simp [Inventory.size, List.length_take]
  · intro cap l
    have hle := deserialize_size_le_aux l { capacity := cap, fish := [] }
      (by simp [Inventory.size])
    have hcap := fold_addFish_capacity l { capacity := cap, fish := [] }
    unfold Inventory.deserialize
    rw [hcap] at hle
    exact hle

/-- Witness for C9: deserializing two distinct fish into capacity 1 keeps
only the first. -/
theorem inventory_deserialize_spec_witness :
    (Inventory.deserialize 1 [testFish1, testFish2]).fish =
      [("f1", testFish1)] ∧
    (Inventory.deserialize 1 [testFish1, testFish2]).size = 1 :=
  have h := inventory_deserialize_spec.1 1 [testFish1, testFish2] (by decide)
  ⟨by rw [h.1]; rfl, by rw [h.2]; decide⟩

/-- Claim C4: generating a fish samples its weight as the uniform draw over
the species' `[min, max]` weight range rounded to one decimal place, sets its
value to `round(baseValue * (1 + weight/10) * rarityMultiplier)` for the
drawn rarity, and always succeeds, assigning the fresh id and the capture
timestamp and copying the species fields; the underlying uniform sample
stays inside `[min, max]` for any draw in `[0, 1]`. -/
theorem fish_generation_spec (sp : FishSpecies) (rar : FishRarity) (depth : ℚ)
    (freshId : String) (now : ℤ) (r : ℚ) :
    (Fish.create sp rar depth freshId now r).weight =
      ((jsRound (randomFloat sp.weightMin sp.weightMax r * 10) : ℤ) : ℚ) / 10 ∧
    (Fish.create sp rar depth freshId now r).value =
      ((jsRound (sp.baseValue *
        (1 + (Fish.create sp rar depth freshId now r).weight / 10) *
        RARITY_VALUE_MULTIPLIERS rar) : ℤ) : ℚ) ∧
    (Fish.create sp rar depth freshId now r).id = freshId ∧
    (Fish.create sp rar depth freshId now r).speciesId = sp.id ∧
    (Fish.create sp rar depth freshId now r).speciesName = sp.name ∧
    (Fish.create sp rar depth freshId now r).rarity = rar ∧
    (Fish.create sp rar depth freshId now r).caughtDepth = depth ∧
    (Fish.create sp rar depth freshId now r).caughtAt = now ∧
    (0 ≤ r → r ≤ 1 → sp.weightMin ≤ sp.weightMax →
      sp.weightMin ≤ randomFloat sp.weightMin sp.weightMax r ∧
      randomFloat sp.weightMin sp.weightMax r ≤ sp.weightMax) := by
  refine ⟨?_, ?_, rfl, rfl, rfl, rfl, rfl, rfl, ?_⟩
  · simp [Fish.create, randomFloatPrecision]
  · simp [Fish.create, Fish.calculateValue]
  · intro hr0 hr1 hmm
    unfold randomFloat
    constructor
    · nlinarith
    · nlinarith

/-- Witness for C4 at a concrete species, draw and rarity. -/
theorem fish_generation_spec_witness :
    (Fish.create testSpecies .common 5 "fx" 1700000000000 (1 / 2)).id = "fx" ∧
    testSpecies.weightMin ≤
      randomFloat testSpecies.weightMin testSpecies.weightMax (1 / 2) ∧
    randomFloat testSpecies.weightMin testSpecies.weightMax (1 / 2) ≤
      testSpecies.weightMax :=
  have h := fish_generation_spec testSpecies .common 5 "fx" 1700000000000 (1 / 2)
  have hb := h.2.2.2.2.2.2.2.2 (by norm_num) (by norm_num)
    (by norm_num [testSpecies])
  ⟨h.2.2.1, hb.1, hb.2⟩

theorem grid_lt_iff (i : Fin 100) (c : ℕ) :
    ((i : ℚ) / 100 < (c : ℚ) / 100) ↔ i.val < c := by
  rw [div_lt_div_iff_of_pos_right (by norm_num : (0 : ℚ) < 100)]
  exact_mod_cast Iff.rfl

theorem generateRarity_common_grid (t : Fin 100 × Fin 100 × Fin 100 × Fin 100) :
    generateRarity 1 ((t.1 : ℚ) / 100) ((t.2.1 : ℚ) / 100)
      ((t.2.2.1 : ℚ) / 100) ((t.2.2.2 : ℚ) / 100) = FishRarity.common ↔
    (1 ≤ t.1.val ∧ 4 ≤ t.2.1.val ∧ 10 ≤ t.2.2.1.val ∧ 25 ≤ t.2.2.2.val) := by
  have f1 : (chance ((t.1 : ℚ) / 100)
      (RARITY_CHANCES .mythic + ((1 : ℚ) - 1) * (2 / 100)) = true) ↔ t.1.val < 1 := by
    simp only [chance, decide_eq_true_eq]
    rw [show RARITY_CHANCES .mythic + ((1 : ℚ) - 1) * (2 / 100) = ((1 : ℕ) : ℚ) / 100 by
      norm_num [RARITY_CHANCES]]
    exact grid_lt_iff t.1 1
  have f2 : (chance ((t.2.1 : ℚ) / 100)
      (RARITY_CHANCES .legendary + ((1 : ℚ) - 1) * (2 / 100)) = true) ↔ t.2.1.val < 4 := by
    simp only [chance, decide_eq_true_eq]
    rw [show RARITY_CHANCES .legendary + ((1 : ℚ) - 1) * (2 / 100) = ((4 : ℕ) : ℚ) / 100 by
      norm_num [RARITY_CHANCES]]
    exact grid_lt_iff t.2.1 4
  have f3 : (chance ((t.2.2.1 : ℚ) / 100)
      (RARITY_CHANCES .rare + ((1 : ℚ) - 1) * (2 / 100)) = true) ↔ t.2.2.1.val < 10 := by
    simp only [chance, decide_eq_true_eq]
    rw [show RARITY_CHANCES .rare + ((1 : ℚ) - 1) * (2 / 100) = ((10 : ℕ) : ℚ) / 100 by
      norm_num [RARITY_CHANCES]]
    exact grid_lt_iff t.2.2.1 10
  have f4 : (chance ((t.2.2.2 : ℚ) / 100)
      (RARITY_CHANCES .uncommon + ((1 : ℚ) - 1) * (2 / 100)) = true) ↔ t.2.2.2.val < 25 := by
    simp only [chance, decide_eq_true_eq]
    rw [show RARITY_CHANCES .uncommon + ((1 : ℚ) - 1) * (2 / 100) = ((25 : ℕ) : ℚ) / 100 by
      norm_num [RARITY_CHANCES]]
    exact grid_lt_iff t.2.2.2 25
  simp only [generateRarity]
  split_ifs with h1 h2 h3 h4
  · rw [f1] at h1
    simp only [show (FishRarity.mythic = FishRarity.common) ↔ False by simp, false_iff]
    intro hc
    omega
  · rw [f2] at h2
    simp only [show (FishRarity.legendary = FishRarity.common) ↔ False by simp, false_iff]
    intro hc
    omega
  · rw [f3] at h3
    simp only [show (FishRarity.rare = FishRarity.common) ↔ False by simp, false_iff]
    intro hc
    omega
  · rw [f4] at h4
    simp only [show (FishRarity.uncommon = FishRarity.common) ↔ False by simp, false_iff]
    intro hc
    omega
  · rw [f1] at h1
    rw [f2] at h2
    rw [f3] at h3
    rw [f4] at h4
    simp only [true_iff]
    omega

/-- Claim C2: the rarity resolver is a rarest-first short-circuit chain —
mythic is drawn iff its test hits; legendary iff mythic fails and its test
hits; then rare, then uncommon; common iff all four tests fail.  On the
uniform 4-dimensional draw grid with bonus 0 (fishing power 1), the number
of draws resolving to common is `99·96·90·75` out of `100^4`, i.e. the
product of the four failure probabilities — and that is not `1 − (sum of
the four base probabilities)`. -/
theorem rarity_resolver_spec :
    (∀ fishingPower r1 r2 r3 r4 : ℚ,
      (generateRarity fishingPower r1 r2 r3 r4 = .mythic ↔
        r1 < RARITY_CHANCES .mythic + (fishingPower - 1) * (2 / 100)) ∧
      (generateRarity fishingPower r1 r2 r3 r4 = .legendary ↔
        (¬ r1 < RARITY_CHANCES .mythic + (fishingPower - 1) * (2 / 100)) ∧
        r2 < RARITY_CHANCES .legendary + (fishingPower - 1) * (2 / 100)) ∧
      (generateRarity fishingPower r1 r2 r3 r4 = .rare ↔
        (¬ r1 < RARITY_CHANCES .mythic + (fishingPower - 1) * (2 / 100)) ∧
        (¬ r2 < RARITY_CHANCES .legendary + (fishingPower - 1) * (2 / 100)) ∧
        r3 < RARITY_CHANCES .rare + (fishingPower - 1) * (2 / 100)) ∧
      (generateRarity fishingPower r1 r2 r3 r4 = .uncommon ↔
        (¬ r1 < RARITY_CHANCES .mythic + (fishingPower - 1) * (2 / 100)) ∧
        (¬ r2 < RARITY_CHANCES .legendary + (fishingPower - 1) * (2 / 100)) ∧
        (¬ r3 < RARITY_CHANCES .rare + (fishingPower - 1) * (2 / 100)) ∧
        r4 < RARITY_CHANCES .uncommon + (fishingPower - 1) * (2 / 100)) ∧
      (generateRarity fishingPower r1 r2 r3 r4 = .common ↔
        (¬ r1 < RARITY_CHANCES .mythic + (fishingPower - 1) * (2 / 100)) ∧
        (¬ r2 < RARITY_CHANCES .legendary + (fishingPower - 1) * (2 / 100)) ∧
        (¬ r3 < RARITY_CHANCES .rare + (fishingPower - 1) * (2 / 100)) ∧
        (¬ r4 < RARITY_CHANCES .uncommon + (fishingPower - 1) * (2 / 100)))) ∧
    rarityGridCommonCount = 99 * 96 * 90 * 75 ∧
    (rarityGridCommonCount : ℚ) / 100 ^ 4 =
      (1 - RARITY_CHANCES .mythic) * (1 - RARITY_CHANCES .legendary) *
      (1 - RARITY_CHANCES .rare) * (1 - RARITY_CHANCES .uncommon) ∧
    (rarityGridCommonCount : ℚ) / 100 ^ 4 ≠
      1 - (RARITY_CHANCES .mythic + RARITY_CHANCES .legendary +
           RARITY_CHANCES .rare + RARITY_CHANCES .uncommon) := by
  have hcount : rarityGridCommonCount = 99 * 96 * 90 * 75 := by
    unfold rarityGridCommonCount
    have hcongr : (Finset.univ.filter
        (fun t : Fin 100 × Fin 100 × Fin 100 × Fin 100 =>
          generateRarity 1 ((t.1 : ℚ) / 100) ((t.2.1 : ℚ) / 100)
            ((t.2.2.1 : ℚ) / 100) ((t.2.2.2 : ℚ) / 100) = FishRarity.common)) =
        Finset.univ.filter (fun t : Fin 100 × Fin 100 × Fin 100 × Fin 100 =>
          1 ≤ t.1.val ∧ 4 ≤ t.2.1.val ∧ 10 ≤ t.2.2.1.val ∧ 25 ≤ t.2.2.2.val) :=
      Finset.filter_congr (fun t _ => by rw [generateRarity_common_grid t])
    have hsplit : (Finset.univ.filter (fun t : Fin 100 × Fin 100 × Fin 100 × Fin 100 =>
        1 ≤ t.1.val ∧ 4 ≤ t.2.1.val ∧ 10 ≤ t.2.2.1.val ∧ 25 ≤ t.2.2.2.val)) =
        (Finset.univ.filter (fun a : Fin 100 => 1 ≤ a.val)) ×ˢ
        ((Finset.univ.filter (fun a : Fin 100 => 4 ≤ a.val)) ×ˢ
        ((Finset.univ.filter (fun a : Fin 100 => 10 ≤ a.val)) ×ˢ
        (Finset.univ.filter (fun a : Fin 100 => 25 ≤ a.val)))) := by
      ext t
      simp [Finset.mem_product, and_assoc]
    have c1 : ((Finset.univ : Finset (Fin 100)).filter (fun a => 1 ≤ a.val)).card = 99 := by
      decide
    have c2 : ((Finset.univ : Finset (Fin 100)).filter (fun a => 4 ≤ a.val)).card = 96 := by
      decide
    have c3 : ((Finset.univ : Finset (Fin 100)).filter (fun a => 10 ≤ a.val)).card = 90 := by
      decide
    have c4 : ((Finset.univ : Finset (Fin 100)).filter (fun a => 25 ≤ a.val)).card = 75 := by
      decide
    rw [hcongr, hsplit, Finset.card_product, Finset.card_product,
      Finset.card_product, c1, c2, c3, c4]
  refine ⟨?_, hcount, ?_, ?_⟩
  · intro p r1 r2 r3 r4
    refine ⟨?_, ?_, ?_, ?_, ?_⟩ <;>
      · simp only [generateRarity, chance]
        split_ifs <;> simp_all [decide_eq_true_eq]
  · rw [hcount]
    norm_num [RARITY_CHANCES]
  · rw [hcount]
    norm_num [RARITY_CHANCES]

/-- Counterexample to claim C3 as stated: with efficiency `E = 1` and draw
`1/2`, the code generates `1 + randomInt(0, ⌊1⌋)` = 2 offspring, outside
the claimed range `1..⌊E⌋ = {1}`; and for parents caught at depths 10 and
11 the offspring depth is `⌊21/2⌋ = 10`, not the average `21/2`. -/
theorem breeding_offspring_counterexample :
    offspringCount 1 (1 / 2) = 2 ∧
    ¬ offspringCount 1 (1 / 2) ≤ ⌊(1 : ℚ)⌋ ∧
    offspringDepth testFish3 testFish2 ≠
      (testFish3.caughtDepth + testFish2.caughtDepth) / 2 := by
  have h1 : offspringCount 1 (1 / 2) = 2 := by
    unfold offspringCount randomInt
    norm_num
  refine ⟨h1, by rw [h1]; norm_num, ?_⟩
  unfold offspringDepth
  norm_num [testFish3, testFish2]

theorem range_div_filter_card (c n j : ℕ) (hc : 0 < c) (hj : j < n) :
    ((Finset.range (c * n)).filter (fun i => i / c = j)).card = c := by
  have hset : (Finset.range (c * n)).filter (fun i => i / c = j) =
      Finset.Ico (j * c) (j * c + c) := by
    ext i
    simp only [Finset.mem_filter, Finset.mem_range, Finset.mem_Ico]
    constructor
    · rintro ⟨hi, hdiv⟩
      have hub : i < (j + 1) * c :=
        (Nat.div_lt_iff_lt_mul hc).mp (by rw [hdiv]; exact Nat.lt_succ_self j)
      have hlb : j * c ≤ i :=
        (Nat.le_div_iff_mul_le hc).mp (le_of_eq hdiv.symm)
      rw [Nat.succ_mul] at hub
      exact ⟨hlb, hub⟩
    · rintro ⟨h1, h2⟩
      have hub2 : i < (j + 1) * c := by rw [Nat.succ_mul]; exact h2
      have ha : j ≤ i / c := (Nat.le_div_iff_mul_le hc).mpr h1
      have hb2 : i / c < j + 1 := (Nat.div_lt_iff_lt_mul hc).mpr hub2
      refine ⟨?_, Nat.le_antisymm (Nat.lt_succ_iff.mp hb2) ha⟩
      calc i < (j + 1) * c := hub2
        _ ≤ n * c := Nat.mul_le_mul_right c hj
        _ = c * n := Nat.mul_comm n c
  rw [hset, Nat.card_Ico, Nat.add_sub_cancel_left]

/-- Claim C3 (amended): on completion, the number of offspring is
`1 + randomInt(0, ⌊E⌋)`, i.e. it ranges over `1..⌊E⌋ + 1` (not `1..⌊E⌋`)
and is uniformly distributed over that range (on any uniform draw grid of
size divisible by `⌊E⌋ + 1`, each count has exactly the same number of
preimages); and every offspring's capture depth is the floor of the
parents' average capture depth (not the exact average). -/
theorem breeding_offspring_spec :
    (∀ eff r : ℚ, 1 ≤ eff → 0 ≤ r → r < 1 →
      1 ≤ offspringCount eff r ∧ offspringCount eff r ≤ ⌊eff⌋ + 1) ∧
    (∀ (eff : ℚ) (c : ℕ) (k : ℤ), 1 ≤ eff → 0 < c → 1 ≤ k → k ≤ ⌊eff⌋ + 1 →
      offspringCountGrid eff (c * (⌊eff⌋ + 1).toNat) k = c) ∧
    (∀ (p1 p2 : Fish) (sp : FishSpecies) (eff rI rM : ℚ) (fid : String)
       (now : ℤ) (rw2 : ℚ),
      (generateSingleOffspring p1 p2 sp eff rI rM fid now rw2).caughtDepth =
        (⌊(p1.caughtDepth + p2.caughtDepth) / 2⌋ : ℚ)) := by
  refine ⟨?_, ?_, ?_⟩
  · intro eff r heff hr0 hr1
    have hM : (1 : ℤ) ≤ ⌊eff⌋ := Int.le_floor.mpr (by exact_mod_cast heff)
    have hMq : (1 : ℚ) ≤ (⌊eff⌋ : ℚ) := by exact_mod_cast hM
    unfold offspringCount randomInt
    simp only [Int.cast_zero, sub_zero, add_zero]
    have hpos : (0 : ℚ) < (⌊eff⌋ : ℚ) + 1 := by linarith
    constructor
    · have h0 : (0 : ℤ) ≤ ⌊r * ((⌊eff⌋ : ℚ) + 1)⌋ :=
        Int.floor_nonneg.mpr (mul_nonneg hr0 (le_of_lt hpos))
      omega
    · have hup : ⌊r * ((⌊eff⌋ : ℚ) + 1)⌋ < ⌊eff⌋ + 1 := by
        rw [Int.floor_lt]
        push_cast
        nlinarith
      omega
  · intro eff c k heff hc hk1 hk2
    have hM : (1 : ℤ) ≤ ⌊eff⌋ := Int.le_floor.mpr (by exact_mod_cast heff)
    obtain ⟨Mn, hMn⟩ : ∃ m : ℕ, (m : ℤ) = ⌊eff⌋ + 1 :=
      ⟨(⌊eff⌋ + 1).toNat, Int.toNat_of_nonneg (by omega)⟩
    have htn : (⌊eff⌋ + 1).toNat = Mn := by omega
    rw [htn]
    have hMnpos : 0 < Mn := by omega
    unfold offspringCountGrid
    have hcongr : ∀ i ∈ Finset.range (c * Mn),
        (offspringCount eff ((i : ℚ) / ((c * Mn : ℕ) : ℚ)) = k) ↔
        (i / c = (k - 1).toNat) := by
      intro i _
      unfold offspringCount randomInt
      simp only [Int.cast_zero, sub_zero, add_zero]
      have hfq : (⌊eff⌋ : ℚ) + 1 = ((Mn : ℕ) : ℚ) := by
        have hq : ((Mn : ℤ) : ℚ) = ((⌊eff⌋ + 1 : ℤ) : ℚ) := by rw [hMn]
        push_cast at hq
        linarith
      rw [hfq]
      have harg : ((i : ℚ) / ((c * Mn : ℕ) : ℚ)) * ((Mn : ℕ) : ℚ) =
          (((i * Mn : ℕ) : ℤ) : ℚ) / ((c * Mn : ℕ) : ℚ) := by
        push_cast
        ring
      rw [harg, Rat.floor_intCast_div_natCast]
      have hdiv : (((i * Mn : ℕ) : ℤ)) / (((c * Mn : ℕ) : ℕ) : ℤ) =
          ((i / c : ℕ) : ℤ) := by
        rw [← Int.natCast_div, Nat.mul_div_mul_right i c hMnpos]
      rw [hdiv]
      omega
    rw [Finset.filter_congr hcongr]
    have hjlt : (k - 1).toNat < Mn := by omega
    exact range_div_filter_card c Mn (k - 1).toNat hc hjlt
  · intro p1 p2 sp eff rI rM fid now rw2
    rfl

/-- Witness for the amended C3: with efficiency 2 the counts 1, 2, 3 each
occur on exactly 2 of the 6 grid draws, and a concrete offspring depth is
the floored parent average. -/
theorem breeding_offspring_spec_witness :
    offspringCountGrid 2 (2 * (⌊(2 : ℚ)⌋ + 1).toNat) 3 = 2 ∧
    (generateSingleOffspring testFish3 testFish2 testSpecies 1 (1 / 2) (1 / 2)
      "fy" 1700000000003 (1 / 2)).caughtDepth =
      (⌊(testFish3.caughtDepth + testFish2.caughtDepth) / 2⌋ : ℚ) :=
  ⟨breeding_offspring_spec.2.1 2 2 3 (by norm_num) (by norm_num) (by norm_num)
    (by norm_num),
   breeding_offspring_spec.2.2 testFish3 testFish2 testSpecies 1 (1 / 2) (1 / 2)
    "fy" 1700000000003 (1 / 2)⟩

theorem unlockWithReward_money (a : Achievement) (money : ℚ)
    (h : a.isUnlocked = false) :
    unlockWithReward a money =
      ({ a with isUnlocked := true },
       money + (if 0 < a.reward then a.reward else 0)) := by
  unfold unlockWithReward Economy.addMoney
  by_cases h0 : a.reward = 0
  · simp [h, h0]
  · by_cases hpos : 0 < a.reward
    · simp [h, h0, hpos, not_le.mpr hpos]
    · have hle : a.reward ≤ 0 := le_of_not_lt hpos
      simp [h, h0, hpos, hle]

theorem unlockIfMet_of_unlocked (n : String) (v : ℚ) (a : Achievement)
    (h : a.isUnlocked = true) : unlockIfMet n v a = a := by
  simp [unlockIfMet, h]

theorem creditOf_of_unlocked (n : String) (v : ℚ) (a : Achievement)
    (h : a.isUnlocked = true) : creditOf n v a = 0 := by
  simp [creditOf, h]

theorem unlockIfMet_isUnlocked (n : String) (v : ℚ) (a : Achievement) :
    (unlockIfMet n v a).isUnlocked = (a.isUnlocked || a.checkRequirement n v) := by
  unfold unlockIfMet
  cases hu : a.isUnlocked with
  | true => simp [hu]
  | false =>
      cases hc : a.checkRequirement n v with
      | true => simp [hu, hc]
      | false => simp [hu, hc]

theorem unlockIfMet_idem (n : String) (v : ℚ) (a : Achievement) :
    unlockIfMet n v (unlockIfMet n v a) = unlockIfMet n v a := by
  unfold unlockIfMet
  cases hu : a.isUnlocked with
  | true => simp [hu]
  | false =>
      cases hc : a.checkRequirement n v with
      | true => simp [hu, hc]
      | false => simp [hu, hc]

theorem creditOf_unlockIfMet (n : String) (v : ℚ) (a : Achievement) :
    creditOf n v (unlockIfMet n v a) = 0 := by
  unfold creditOf unlockIfMet
  cases hu : a.isUnlocked with
  | true => simp [hu]
  | false =>
      cases hc : a.checkRequirement n v with
      | true => simp [hu, hc]
      | false => simp [hu, hc]

theorem checkPass_eq (n : String) (v : ℚ) (aList : List Achievement) (money : ℚ) :
    checkPass n v aList money =
      (aList.map (unlockIfMet n v), money + (aList.map (creditOf n v)).sum) := by
  induction aList generalizing money with
  | nil => simp [checkPass]
  | cons a rest ih =>
      cases hg : (!a.isUnlocked && a.checkRequirement n v) with
      | true =>
          have hunl : a.isUnlocked = false := by
            have h1 := hg
            rw [Bool.and_eq_true] at h1
            simpa using h1.1
          simp only [checkPass, hg, if_true]
          rw [unlockWithReward_money a money hunl, ih]
          simp only [List.map_cons, List.sum_cons, unlockIfMet, creditOf, hg,
            if_true]
          exact Prod.ext rfl (by ring)
      | false =>
          simp only [checkPass, hg, Bool.false_eq_true, if_false]
          rw [ih]
          simp only [List.map_cons, List.sum_cons, unlockIfMet, creditOf, hg,
            Bool.false_eq_true, if_false]
          exact Prod.ext rfl (by ring)

theorem setStat_eq (s : StatsState) (n : String) (v : ℚ) :
    s.setStat n v =
      { stats := mapSet s.stats n v
        uniqueSpecies := s.uniqueSpecies
        achievements := s.achievements.map (unlockIfMet n v)
        money := s.money + (s.achievements.map (creditOf n v)).sum } := by
  unfold StatsState.setStat
  simp only [checkPass_eq]
  have hmap : (s.achievements.map (unlockIfMet n v)).map (unlockIfMet n v) =
      s.achievements.map (unlockIfMet n v) := by
    rw [List.map_map]
    exact List.map_congr_left (fun a _ => unlockIfMet_idem n v a)
  have hz : ((s.achievements.map (unlockIfMet n v)).map (creditOf n v)).sum = 0 := by
    rw [List.map_map]
    apply List.sum_eq_zero
    intro x hx
    obtain ⟨a, _, hax⟩ := List.mem_map.mp hx
    rw [← hax]
    exact creditOf_unlockIfMet n v a
  rw [hmap, hz, add_zero]

theorem gameStart_eval : gameStartStats 0 =
    { stats := [("totalFishCaught", 0), ("commonFishCaught", 0),
        ("uncommonFishCaught", 0), ("rareFishCaught", 0),
        ("legendaryFishCaught", 0), ("mythicFishCaught", 0),
        ("uniqueSpeciesCaught", 0), ("maxDepthReached", 0),
        ("totalMoneyEarned", 0), ("totalMoneySpent", 0),
        ("totalBreedingAttempts", 0), ("successfulBreeds", 0),
        ("totalOffspring", 0), ("mutationsObtained", 0),
        ("totalPlayTime", 0), ("abilitiesActivated", 0)],
      uniqueSpecies := [], achievements := INITIAL_ACHIEVEMENTS, money := 0 } := by
  simp [gameStartStats, statsTrackerNew, initialStatNames, setStat_eq, mapSet]

/-- Claim C7: every `setStat` maps each achievement through the monotone
one-shot update `unlockIfMet` (an unlocked achievement is left untouched
and never re-credited, and an achievement becomes unlocked exactly when it
was already unlocked or its requirement on the updated stat is now met),
and the balance grows by exactly one reward per newly unlocked achievement
even though the scan runs through two code paths.  Concretely, from the
fresh game state the first registered catch unlocks `first_catch` and
credits exactly its reward of 10, and a second catch leaves the flag set
and the balance unchanged. -/
theorem achievement_engine_spec :
    (∀ (s : StatsState) (n : String) (v : ℚ),
      (s.setStat n v).achievements = s.achievements.map (unlockIfMet n v) ∧
      (s.setStat n v).money =
        s.money + (s.achievements.map (creditOf n v)).sum) ∧
    (∀ (n : String) (v : ℚ) (a : Achievement), a.isUnlocked = true →
      unlockIfMet n v a = a ∧ creditOf n v a = 0) ∧
    (∀ (n : String) (v : ℚ) (a : Achievement),
      (unlockIfMet n v a).isUnlocked =
        (a.isUnlocked || a.checkRequirement n v)) ∧
    ((findAchievement (registerFishCaught (gameStartStats 0) testFish1)
        "first_catch").map Achievement.isUnlocked = some true ∧
      (registerFishCaught (gameStartStats 0) testFish1).money = 10 ∧
      (findAchievement (registerFishCaught
          (registerFishCaught (gameStartStats 0) testFish1) testFish1)
        "first_catch").map Achievement.isUnlocked = some true ∧
      (registerFishCaught (registerFishCaught (gameStartStats 0) testFish1)
          testFish1).money = 10) := by
  refine ⟨?_, ?_, ?_, ?_⟩
  · intro s n v
    rw [setStat_eq]
    exact ⟨rfl, rfl⟩
  · intro n v a h
    exact ⟨unlockIfMet_of_unlocked n v a h, creditOf_of_unlocked n v a h⟩
  · intro n v a
    exact unlockIfMet_isUnlocked n v a
  · rw [gameStart_eval]
    refine ⟨?_, ?_, ?_, ?_⟩ <;>
      simp [registerFishCaught, StatsState.incrementStat, setStat_eq,
        StatsState.getStat, Achievement.checkRequirement, mapGet, mapSet,
        INITIAL_ACHIEVEMENTS, testFish1, rarityString, findAchievement,
        List.find?, unlockIfMet, creditOf,
        show ((1 : ℚ) + 1 = 2) from by norm_num,
        show ¬((10 : ℚ) ≤ 1) from by norm_num,
        show ¬((50 : ℚ) ≤ 1) from by norm_num,
        show ¬((10 : ℚ) ≤ 2) from by norm_num,
        show ¬((50 : ℚ) ≤ 2) from by norm_num,
        show ((0 : ℚ) < 5) from by norm_num,
        show ((5 : ℚ) < 100) from by norm_num,
        show ¬((100 : ℚ) ≤ 5) from by norm_num,
        show ((0 : ℚ) < 10) from by norm_num]

/-- Witness for C7: the monotone part applied to a concrete unlocked
achievement. -/
theorem achievement_engine_spec_witness :
    unlockIfMet "totalFishCaught" 5
      { id := "first_catch", requirements := [("totalFishCaught", 1)],
        isUnlocked := true, reward := 10 } =
      { id := "first_catch", requirements := [("totalFishCaught", 1)],
        isUnlocked := true, reward := 10 } ∧
    creditOf "totalFishCaught" 5
      { id := "first_catch", requirements := [("totalFishCaught", 1)],
        isUnlocked := true, reward := 10 } = 0 :=
  achievement_engine_spec.2.1 "totalFishCaught" 5
    { id := "first_catch", requirements := [("totalFishCaught", 1)],
      isUnlocked := true, reward := 10 } rfl

set_option maxHeartbeats 1000000 in
theorem yoeEasy (doe : ℤ) (h0 : 0 ≤ doe) (h1 : doe ≤ 146096) :
    0 ≤ (doe - doe / 1460 + doe / 36524 - doe / 146096) / 365 ∧
    (doe - doe / 1460 + doe / 36524 - doe / 146096) / 365 ≤ 399 ∧
    doe ≤ 365 * ((doe - doe / 1460 + doe / 36524 - doe / 146096) / 365) +
      ((doe - doe / 1460 + doe / 36524 - doe / 146096) / 365) / 4 -
      ((doe - doe / 1460 + doe / 36524 - doe / 146096) / 365) / 100 + 366 := by
  omega

set_option maxHeartbeats 4000000 in
theorem yoeHard (doe : ℤ) (h0 : 0 ≤ doe) (h1 : doe ≤ 146096) :
    365 * ((doe - doe / 1460 + doe / 36524 - doe / 146096) / 365) +
      ((doe - doe / 1460 + doe / 36524 - doe / 146096) / 365) / 4 -
      ((doe - doe / 1460 + doe / 36524 - doe / 146096) / 365) / 100 ≤ doe := by
  obtain ⟨y, hy⟩ : ∃ y, y = (doe - doe / 1460 + doe / 36524 - doe / 146096) / 365 :=
    ⟨_, rfl⟩
  rw [← hy]
  have hb1 : 0 ≤ y := by omega
  have hb2 : y ≤ 399 := by omega
  interval_cases y <;> omega

theorem daysFromCivil_closed (y0 m d y era yoe doy : ℤ)
    (hy : y = y0 - (if m ≤ 2 then 1 else 0))
    (hera : era = y / 400)
    (hyoe : yoe = y - era * 400)
    (hdoy : doy = (153 * (m + (if m > 2 then -3 else 9)) + 2) / 5 + d - 1) :
    daysFromCivil y0 m d =
      era * 146097 + (yoe * 365 + yoe / 4 - yoe / 100 + doy) - 719468 := by
  subst hy hera hyoe hdoy
  rfl

theorem mp_m_inv (mp m : ℤ) (h0 : 0 ≤ mp) (h1 : mp ≤ 11)
    (hm : m = mp + (if mp < 10 then 3 else -9)) :
    m + (if m > 2 then -3 else 9) = mp := by
  split_ifs at hm ⊢ <;> omega

set_option maxHeartbeats 2000000 in
theorem roundtrip_core (z era doe yoe doy mp d m : ℤ)
    (hera : era = (z + 719468) / 146097)
    (hdoe : doe = z + 719468 - era * 146097)
    (hyoe : yoe = (doe - doe / 1460 + doe / 36524 - doe / 146096) / 365)
    (hdoy : doy = doe - (365 * yoe + yoe / 4 - yoe / 100))
    (hmp : mp = (5 * doy + 2) / 153)
    (hd : d = doy - (153 * mp + 2) / 5 + 1)
    (hm : m = mp + (if mp < 10 then 3 else -9)) :
    daysFromCivil (yoe + era * 400 + (if m ≤ 2 then 1 else 0)) m d = z := by
  have h0 : 0 ≤ doe := by omega
  have h1 : doe ≤ 146096 := by omega
  have hE := yoeEasy doe h0 h1
  have hH := yoeHard doe h0 h1
  rw [show (doe - doe / 1460 + doe / 36524 - doe / 146096) / 365 = yoe from
    hyoe.symm] at hE hH
  have hyoer : 0 ≤ yoe ∧ yoe ≤ 399 := by omega
  have hdoyr : 0 ≤ doy ∧ doy ≤ 366 := by omega
  have hmpr : 0 ≤ mp ∧ mp ≤ 11 := by omega
  have hmpm : m + (if m > 2 then -3 else 9) = mp :=
    mp_m_inv mp m hmpr.1 hmpr.2 hm
  obtain ⟨y2, hy2⟩ : ∃ u,
      u = yoe + era * 400 + (if m ≤ 2 then 1 else 0) - (if m ≤ 2 then 1 else 0) :=
    ⟨_, rfl⟩
  obtain ⟨era2, hera2⟩ : ∃ u, u = y2 / 400 := ⟨_, rfl⟩
  obtain ⟨yoe2, hyoe2⟩ : ∃ u, u = y2 - era2 * 400 := ⟨_, rfl⟩
  obtain ⟨doy2, hdoy2⟩ : ∃ u,
      u = (153 * (m + (if m > 2 then -3 else 9)) + 2) / 5 + d - 1 := ⟨_, rfl⟩
  rw [daysFromCivil_closed _ m d y2 era2 yoe2 doy2 hy2 hera2 hyoe2 hdoy2]
  have hyq : y2 = yoe + era * 400 := by omega
  have herq : era2 = era := by omega
  have hyoeq : yoe2 = yoe := by omega
  rw [hmpm] at hdoy2
  have hdoyq : doy2 = doy := by omega
  rw [herq, hyoeq, hdoyq]
  clear hE hH hy2 hera2 hyoe2 hdoy2 hyq herq hyoeq hdoyq hmpm hm hd hmp
  omega

set_option maxHeartbeats 2000000 in
theorem daysFromCivil_civilFromDays (z : ℤ) :
    daysFromCivil (civilFromDays z).1 (civilFromDays z).2.1
      (civilFromDays z).2.2 = z :=
  roundtrip_core z _ _ _ _ _ _ _ rfl rfl rfl rfl rfl rfl rfl

set_option maxHeartbeats 2000000 in
theorem civil_comp_bounds (z era doe yoe doy mp d m : ℤ)
    (hera : era = (z + 719468) / 146097)
    (hdoe : doe = z + 719468 - era * 146097)
    (hyoe : yoe = (doe - doe / 1460 + doe / 36524 - doe / 146096) / 365)
    (hdoy : doy = doe - (365 * yoe + yoe / 4 - yoe / 100))
    (hmp : mp = (5 * doy + 2) / 153)
    (hd : d = doy - (153 * mp + 2) / 5 + 1)
    (hm : m = mp + (if mp < 10 then 3 else -9))
    (hz0 : 0 ≤ z) (hz1 : z ≤ 2932895) :
    (0 ≤ yoe + era * 400 + (if m ≤ 2 then 1 else 0) ∧
      yoe + era * 400 + (if m ≤ 2 then 1 else 0) ≤ 9999) ∧
    (1 ≤ m ∧ m ≤ 12) ∧ (1 ≤ d ∧ d ≤ 31) := by
  have h0 : 0 ≤ doe := by omega
  have h1 : doe ≤ 146096 := by omega
  have hE := yoeEasy doe h0 h1
  have hH := yoeHard doe h0 h1
  rw [show (doe - doe / 1460 + doe / 36524 - doe / 146096) / 365 = yoe from
    hyoe.symm] at hE hH
  have hyoer : 0 ≤ yoe ∧ yoe ≤ 399 := by omega
  have hdoyr : 0 ≤ doy ∧ doy ≤ 366 := by omega
  have hmpr : 0 ≤ mp ∧ mp ≤ 11 := by omega
  have hera2 : 4 ≤ era ∧ era ≤ 24 := by omega
  have hdb : 1 ≤ d ∧ d ≤ 31 := by omega
  have hmb : (1 ≤ m ∧ m ≤ 12) := by split_ifs at hm <;> omega
  refine ⟨⟨?_, ?_⟩, hmb, hdb⟩
  · split_ifs <;> omega
  · by_cases hite : m ≤ 2
    · rw [if_pos hite]
      have hmp10 : 10 ≤ mp := by split_ifs at hm <;> omega
      by_cases hec : era = 24
      · by_cases hyc : yoe = 399
        · subst hec hyc
          omega
        · omega
      · omega
    · rw [if_neg hite]
      omega

theorem civilFromDays_bounds (z : ℤ) (h0 : 0 ≤ z) (h1 : z ≤ 2932895) :
    (0 ≤ (civilFromDays z).1 ∧ (civilFromDays z).1 ≤ 9999) ∧
    (1 ≤ (civilFromDays z).2.1 ∧ (civilFromDays z).2.1 ≤ 12) ∧
    (1 ≤ (civilFromDays z).2.2 ∧ (civilFromDays z).2.2 ≤ 31) :=
  civil_comp_bounds z _ _ _ _ _ _ _ rfl rfl rfl rfl rfl rfl rfl h0 h1

theorem charDigit_digitChar (d : ℕ) (h : d < 10) :
    charDigit (digitChar d) = d := by
  interval_cases d <;> rfl

theorem charDigit_digitChar_mod (n : ℕ) :
    charDigit (digitChar (n % 10)) = n % 10 :=
  charDigit_digitChar (n % 10) (Nat.mod_lt n (by norm_num))

theorem toISOString_closed (t days : ℤ) (r y mo dd hh mi ss ms : ℕ)
    (hdays : days = t / 86400000)
    (hr : r = (t % 86400000).toNat)
    (hy : y = (civilFromDays days).1.toNat)
    (hmo : mo = (civilFromDays days).2.1.toNat)
    (hdd : dd = (civilFromDays days).2.2.toNat)
    (hhh : hh = r / 3600000)
    (hmi : mi = r % 3600000 / 60000)
    (hss : ss = r % 60000 / 1000)
    (hms : ms = r % 1000) :
    toISOString t = String.mk
      [digitChar (y / 1000 % 10), digitChar (y / 100 % 10),
       digitChar (y / 10 % 10), digitChar (y % 10), '-',
       digitChar (mo / 10 % 10), digitChar (mo % 10), '-',
       digitChar (dd / 10 % 10), digitChar (dd % 10), 'T',
       digitChar (hh / 10 % 10), digitChar (hh % 10), ':',
       digitChar (mi / 10 % 10), digitChar (mi % 10), ':',
       digitChar (ss / 10 % 10), digitChar (ss % 10), '.',
       digitChar (ms / 100 % 10), digitChar (ms / 10 % 10),
       digitChar (ms % 10), 'Z'] := by
  subst hdays hr hy hmo hdd hhh hmi hss hms
  rfl

theorem dateFromISOString_mk (c1 c2 c3 c4 c5 c6 c7 c8 c9 c10 c11 c12 c13 c14
    c15 c16 c17 : Char) :
    dateFromISOString (String.mk
      [c1, c2, c3, c4, '-', c5, c6, '-', c7, c8, 'T', c9, c10, ':',
       c11, c12, ':', c13, c14, '.', c15, c16, c17, 'Z']) =
      daysFromCivil
          ((1000 * charDigit c1 + 100 * charDigit c2 +
            10 * charDigit c3 + charDigit c4 : ℕ) : ℤ)
          ((10 * charDigit c5 + charDigit c6 : ℕ) : ℤ)
          ((10 * charDigit c7 + charDigit c8 : ℕ) : ℤ) * 86400000 +
        (((((10 * charDigit c9 + charDigit c10 : ℕ) : ℤ) * 60 +
            ((10 * charDigit c11 + charDigit c12 : ℕ) : ℤ)) * 60 +
          ((10 * charDigit c13 + charDigit c14 : ℕ) : ℤ)) * 1000 +
         ((100 * charDigit c15 + 10 * charDigit c16 + charDigit c17 : ℕ) : ℤ)) := by
  rfl

set_option maxHeartbeats 2000000 in
theorem iso_roundtrip (t : ℤ) (h0 : 0 ≤ t) (h1 : t < 253402214400000) :
    dateFromISOString (toISOString t) = t := by
  obtain ⟨days, hdays⟩ : ∃ v, v = t / 86400000 := ⟨_, rfl⟩
  obtain ⟨r, hr⟩ : ∃ v, v = (t % 86400000).toNat := ⟨_, rfl⟩
  obtain ⟨y, hy⟩ : ∃ v, v = (civilFromDays days).1.toNat := ⟨_, rfl⟩
  obtain ⟨mo, hmo⟩ : ∃ v, v = (civilFromDays days).2.1.toNat := ⟨_, rfl⟩
  obtain ⟨dd, hdd⟩ : ∃ v, v = (civilFromDays days).2.2.toNat := ⟨_, rfl⟩
  obtain ⟨hh, hhh⟩ : ∃ v, v = r / 3600000 := ⟨_, rfl⟩
  obtain ⟨mi, hmi⟩ : ∃ v, v = r % 3600000 / 60000 := ⟨_, rfl⟩
  obtain ⟨ss, hss⟩ : ∃ v, v = r % 60000 / 1000 := ⟨_, rfl⟩
  obtain ⟨ms, hms⟩ : ∃ v, v = r % 1000 := ⟨_, rfl⟩
  rw [toISOString_closed t days r y mo dd hh mi ss ms hdays hr hy hmo hdd
    hhh hmi hss hms, dateFromISOString_mk]
  simp only [charDigit_digitChar_mod]
  have hdb : 0 ≤ days ∧ days ≤ 2932895 := by omega
  obtain ⟨⟨hb1, hb2⟩, ⟨hb3, hb4⟩, ⟨hb5, hb6⟩⟩ :=
    civilFromDays_bounds days hdb.1 hdb.2
  have hy4 : 1000 * (y / 1000 % 10) + 100 * (y / 100 % 10) +
      10 * (y / 10 % 10) + y % 10 = y := by omega
  have hmo2 : 10 * (mo / 10 % 10) + mo % 10 = mo := by omega
  have hdd2 : 10 * (dd / 10 % 10) + dd % 10 = dd := by omega
  have hrb : r < 86400000 := by omega
  have hh2 : 10 * (hh / 10 % 10) + hh % 10 = hh := by omega
  have hmi2 : 10 * (mi / 10 % 10) + mi % 10 = mi := by omega
  have hss2 : 10 * (ss / 10 % 10) + ss % 10 = ss := by omega
  have hms2 : 100 * (ms / 100 % 10) + 10 * (ms / 10 % 10) + ms % 10 = ms := by
    omega
  rw [hy4, hmo2, hdd2, hh2, hmi2, hss2, hms2]
  have hcy : ((y : ℕ) : ℤ) = (civilFromDays days).1 := by omega
  have hcmo : ((mo : ℕ) : ℤ) = (civilFromDays days).2.1 := by omega
  have hcdd : ((dd : ℕ) : ℤ) = (civilFromDays days).2.2 := by omega
  rw [hcy, hcmo, hcdd, daysFromCivil_civilFromDays days]
  omega

/-- Claim C5: deserializing a serialized fish reproduces the original fish
exactly — all scalar fields are copied verbatim, and the `caughtAt`
timestamp survives the ISO-8601 round-trip to the millisecond (for any
timestamp representable with a four-digit year, which covers every
`new Date()` value the game can produce). -/
theorem fish_serialize_roundtrip (f : Fish) (h0 : 0 ≤ f.caughtAt)
    (h1 : f.caughtAt < 253402214400000) :
    Fish.deserialize (Fish.serialize f) = f := by
  unfold Fish.serialize Fish.deserialize
  rw [iso_roundtrip f.caughtAt h0 h1]

/-- Witness for C5 on a concrete fish with a concrete timestamp. -/
theorem fish_serialize_roundtrip_witness :
    (0 ≤ testFish1.caughtAt ∧ testFish1.caughtAt < 253402214400000) ∧
    Fish.deserialize (Fish.serialize testFish1) = testFish1 :=
  ⟨⟨by decide, by decide⟩,
   fish_serialize_roundtrip testFish1 (by decide) (by decide)⟩

end DeepSeas
